import Mathlib

/-!
Verification development for the pathoscope analysis workflow
(`workflow.py`).  The Python source is embedded shallowly: pure fragments
become Lean functions, Python exceptions become `Except`/error results,
Python `float` arithmetic is idealized as exact rational arithmetic, and
external collaborators (the aligner binary, the score extractor, the
reference-metadata lookups) are parameters.
-/

/-- Python exception kinds that the embedded fragments can raise. -/
inductive PyErr
  | indexError
  | valueError
  | typeError
  | zeroDivisionError
  | keyError
deriving DecidableEq

deriving instance DecidableEq for Except

/-- Outcome of running one stdout-handler body on one line: the handler
either accepts a value (performing its stage-specific side effect with
it), returns without effect (reject), or raises a Python exception. -/
inductive FilterResult (α : Type)
  | accept (a : α)
  | reject
  | error (e : PyErr)
deriving DecidableEq

/-- Characters stripped by Python `int()` conversion (`str.strip`
whitespace). -/
def pySpaceChar (c : Char) : Bool :=
  c = ' ' || c = '\t' || c = '\n' || c = '\r' || c = '\x0b' || c = '\x0c'

/-- Strip leading and trailing Python whitespace from a character list. -/
def pyStripChars (cs : List Char) : List Char :=
  ((cs.dropWhile pySpaceChar).reverse.dropWhile pySpaceChar).reverse

/-- Tail of the digit grammar of a Python integer literal: digits with
single underscores allowed only between digits. -/
def pyDigitsTail : List Char → Bool
  | [] => true
  | ['_'] => false
  | '_' :: d :: rest => d.isDigit && pyDigitsTail rest
  | c :: rest => c.isDigit && pyDigitsTail rest

/-- Digit grammar of a Python integer literal body (nonempty, starts with
a digit). -/
def pyIntDigits : List Char → Bool
  | [] => false
  | c :: rest => c.isDigit && pyDigitsTail rest

/-- Numeric value of a digit string, ignoring underscores. -/
def digitsVal (cs : List Char) : ℤ :=
  (((cs.filter (fun c => c ≠ '_')).foldl (fun n c => 10 * n + (c.toNat - 48)) 0 : ℕ) : ℤ)

/-- Embeds Python `int(s)`: strip whitespace, optional sign, digit body.
Returns `none` where Python raises `ValueError`. -/
def pyInt (s : String) : Option ℤ :=
  match pyStripChars s.data with
  | '+' :: rest => if pyIntDigits rest then some (digitsVal rest) else none
  | '-' :: rest => if pyIntDigits rest then some (-(digitsVal rest)) else none
  | cs => if pyIntDigits cs then some (digitsVal cs) else none

/-- Embeds Python `n & 0x4` on an arbitrary-precision integer (bit 2 of
the two's complement representation, so `land4 n = 4` exactly when the
unmapped bit is set). -/
def land4 (n : ℤ) : ℤ := 4 * ((n.fdiv 4) % 2)

/-- Embeds Python `line.split("\t")`: split on single tab characters,
keeping empty fields; the result is never empty. -/
def pySplitTabAux : List Char → List Char → List (List Char)
  | [], acc => [acc.reverse]
  | c :: rest, acc =>
    if c = '\t' then acc.reverse :: pySplitTabAux rest []
    else pySplitTabAux rest (c :: acc)

/-- Embeds Python `line.split("\t")` on a string. -/
def pySplitTab (s : String) : List String := (pySplitTabAux s.data []).map String.mk

/-- The `p_score_cutoff` fixture (workflow.py lines 40-42).  The Python
float `0.01` is idealized as the exact rational. -/
def p_score_cutoff : ℚ := 1/100

/-- One persisted alignment record of the compact VTA format written by
`map_isolates` (workflow.py lines 184-190): read id, reference id, the
position field as it appeared in the aligner output, the read length
`len(fields[9])`, and the extracted score. -/
structure VtaRecord where
  readId : String
  refId : String
  pos : String
  len : ℕ
  score : ℚ
deriving DecidableEq

/-- Embeds the `stdout_handler` of `map_default_isolates` (workflow.py
lines 61-82).  `score` stands for the external
`pathoscope.find_sam_align_score` collaborator, a total deterministic
function of the split fields.  An accepted value is the `ref_id` added to
`intermediate.to_otus`. -/
def map_default_isolates_handler (score : List String → ℚ) (cutoff : ℚ)
    (line : String) : FilterResult String :=
  match line.data.head? with
  | none => .error .indexError
  | some c =>
    if c = '#' ∨ c = '@' then .reject
    else if (pySplitTab line).length < 2 then .error .indexError
    else
      match pyInt ((pySplitTab line).getD 1 ("")) with
      | none => .error .valueError
      | some flag =>
        if land4 flag = 4 then .reject
        else if (pySplitTab line).length < 3 then .error .indexError
        else if (pySplitTab line).getD 2 ("") = "*" then .reject
        else if score (pySplitTab line) < cutoff then .reject
        else .accept ((pySplitTab line).getD 2 (""))

/-- Embeds the `stdout_handler` of `map_isolates` (workflow.py lines
161-190).  Note the header check is `line[0] == "@" or line == "#"`:
only the single-character line `"#"` is rejected, not every line that
starts with `#`.  An accepted value is the VTA record written to the
`to_isolates.vta` file; writing needs `fields[3]` and `fields[9]`, so a
shorter line raises `IndexError` at that point. -/
def map_isolates_handler (score : List String → ℚ) (cutoff : ℚ)
    (line : String) : FilterResult VtaRecord :=
  match line.data.head? with
  | none => .error .indexError
  | some c =>
    if c = '@' ∨ line = "#" then .reject
    else if (pySplitTab line).length < 2 then .error .indexError
    else
      match pyInt ((pySplitTab line).getD 1 ("")) with
      | none => .error .valueError
      | some flag =>
        if land4 flag = 4 then .reject
        else if (pySplitTab line).length < 3 then .error .indexError
        else if (pySplitTab line).getD 2 ("") = "*" then .reject
        else if score (pySplitTab line) < cutoff then .reject
        else if (pySplitTab line).length < 10 then .error .indexError
        else
          .accept
            ⟨(pySplitTab line).getD 0 (""), (pySplitTab line).getD 2 (""),
             (pySplitTab line).getD 3 (""), ((pySplitTab line).getD 9 ("")).length,
             score (pySplitTab line)⟩

/-- Embeds the `stdout_handler` of `map_subtractions` (workflow.py lines
231-247).  Same header check as `map_isolates`; there is no score-cutoff
comparison.  An accepted value is the `(read id, score)` pair assigned
into the `to_subtraction` dict. -/
def map_subtractions_handler (score : List String → ℚ)
    (line : String) : FilterResult (String × ℚ) :=
  match line.data.head? with
  | none => .error .indexError
  | some c =>
    if c = '@' ∨ line = "#" then .reject
    else if (pySplitTab line).length < 2 then .error .indexError
    else
      match pyInt ((pySplitTab line).getD 1 ("")) with
      | none => .error .valueError
      | some flag =>
        if land4 flag = 4 then .reject
        else if (pySplitTab line).length < 3 then .error .indexError
        else if (pySplitTab line).getD 2 ("") = "*" then .reject
        else .accept ((pySplitTab line).getD 0 (""), score (pySplitTab line))

/-- True when the parsed flag field exists, parses as an integer and has
the unmapped bit clear. -/
def flagClear (fields : List String) : Bool :=
  match pyInt (fields.getD 1 ("")) with
  | none => false
  | some n => land4 n != 4

/-- True exactly when the handler outcome is a raised exception. -/
def isErr {α : Type} : FilterResult α → Bool
  | .error _ => true
  | _ => false

/-- Header test of the `map_default_isolates` handler
(`line[0] == "#" or line[0] == "@"`); false on the empty line, where the
subscript itself raises. -/
def headerDefault (line : String) : Bool :=
  match line.data.head? with
  | none => false
  | some c => c == '#' || c == '@'

/-- Header test of the `map_isolates` and `map_subtractions` handlers
(`line[0] == "@" or line == "#"`). -/
def headerIsolates (line : String) : Bool :=
  match line.data.head? with
  | none => false
  | some c => c == '@' || line == "#"

/-- Python-dict assignment `d[k] = v` on an association list that models
`to_subtraction` (insertion order kept, existing key overwritten in
place). -/
def dictSet (d : List (String × ℚ)) (k : String) (v : ℚ) : List (String × ℚ) :=
  if d.any (fun p => p.1 == k) then d.map (fun p => if p.1 == k then (k, v) else p)
  else d ++ [(k, v)]

/-- Python-dict lookup `d.get(k)`: value of the first entry with the
given key. -/
def dictGet : List (String × ℚ) → String → Option ℚ
  | [], _ => none
  | p :: t, k => if p.1 == k then some p.2 else dictGet t k

/-- Runs the `map_subtractions` stdout handler over a list of aligner
output lines, threading the `to_subtraction` dict; a raised exception
aborts the stage. -/
def runSubtraction (score : List String → ℚ) :
    List String → List (String × ℚ) → Except PyErr (List (String × ℚ))
  | [], d => .ok d
  | line :: rest, d =>
    match map_subtractions_handler score line with
    | .error e => .error e
    | .reject => runSubtraction score rest d
    | .accept kv => runSubtraction score rest (dictSet d kv.1 kv.2)

/-- Scores of the records accepted for read id `k`, in input order. -/
def acceptedFor (score : List String → ℚ) (lines : List String) (k : String) : List ℚ :=
  lines.filterMap (fun line =>
    match map_subtractions_handler score line with
    | .accept kv => if kv.1 == k then some kv.2 else none
    | _ => none)

/-- Last element of a list, or a fallback when the list is empty. -/
def lastOr : List ℚ → Option ℚ → Option ℚ
  | [], fb => fb
  | v :: xs, _ => lastOr xs (some v)

/-- Computable floor of a rational (`Int.ediv` of numerator by
denominator). -/
def ratFloor (q : ℚ) : ℤ := q.num / (q.den : ℤ)

/-- Round-half-to-even on an exact rational, idealizing Python
`round`. -/
def rhe (q : ℚ) : ℤ :=
  if q - ratFloor q = 1/2 then
    (if ratFloor q % 2 = 0 then ratFloor q else ratFloor q + 1)
  else ratFloor (q + 1/2)

/-- Idealizes Python `round(x, 3)`: round half to even at the third
decimal place. -/
def pyRound3 (q : ℚ) : ℚ := ((rhe (q * 1000) : ℤ) : ℚ) / 1000

/-- Python float division: raises `ZeroDivisionError` on a zero
denominator, otherwise exact rational division. -/
def pyDiv (a b : ℚ) : Except PyErr ℚ :=
  if b = 0 then .error .zeroDivisionError else .ok (a / b)

/-- Embeds workflow.py lines 370-377 for one reference: from its depth
array `hit_coverage`, compute
`round(1 - hit_coverage.count(0) / len(hit_coverage), 3)` and
`round(sum(hit_coverage) / len(hit_coverage))`.  The divisions use
`pyDiv`, so a length-0 array raises `ZeroDivisionError` exactly as the
Python expression does. -/
def attachCoverage (cov : List ℕ) : Except PyErr (ℚ × ℤ) :=
  match pyDiv ((cov.count 0 : ℕ) : ℚ) ((cov.length : ℕ) : ℚ) with
  | .error e => .error e
  | .ok frac =>
    match pyDiv ((cov.sum : ℕ) : ℚ) ((cov.length : ℕ) : ℚ) with
    | .error e => .error e
    | .ok m => .ok (pyRound3 (1 - frac), rhe m)

/-- The value held by `intermediate.coverage`: either the pending task
object returned by a `run_in_executor` call that was not awaited, or the
per-reference coverage dict the finished task would yield. -/
inductive CoverageSlot
  | pending (task : String → Option (List ℕ))
  | ready (d : String → Option (List ℕ))

/-- Python subscript `intermediate.coverage[sequence_id]` (workflow.py
line 370).  Subscripting a pending task object raises `TypeError`; on a
dict, a missing key raises `KeyError`. -/
def covLookup : CoverageSlot → String → Except PyErr (List ℕ)
  | .pending _, _ => .error .typeError
  | .ready d, k =>
    match d k with
    | some v => .ok v
    | none => .error .keyError

/-- Embeds workflow.py lines 350-354:
`intermediate.coverage = run_in_executor(pathoscope.calculate_coverage, ...)`.
The call is not awaited, so the attribute holds the pending task object,
not the computed coverage dict. -/
def intermediateCoverage (task : String → Option (List ℕ)) : CoverageSlot :=
  .pending task

/-- One final report entry (workflow.py lines 358-379): the per-reference
statistics dict from `pathoscope.write_report` (opaque, type `α`) joined
with the sequence id, the OTU id and manifest version, and the derived
coverage and depth. -/
structure Hit (α : Type) where
  id : String
  stats : α
  otuId : String
  otuVersion : ℕ
  coverage : ℚ
  depth : ℤ

/-- Embeds the hit-building loop of `reassignment` (workflow.py lines
356-379).  `otuIdOf` and `manifest` stand for the external
`index.get_otu_id_by_sequence_id` and `index.manifest` collaborators;
`report` is the ordered reassignment output.  The first raised exception
aborts the loop. -/
def buildHits {α : Type} (otuIdOf : String → String) (manifest : String → ℕ)
    (cov : CoverageSlot) : List (String × α) → Except PyErr (List (Hit α))
  | [] => .ok []
  | (sid, st) :: rest =>
    match covLookup cov sid with
    | .error e => .error e
    | .ok hc =>
      match attachCoverage hc with
      | .error e => .error e
      | .ok cd =>
        match buildHits otuIdOf manifest cov rest with
        | .error e => .error e
        | .ok tail =>
          .ok ({ id := sid, stats := st, otuId := otuIdOf sid,
                 otuVersion := manifest (otuIdOf sid),
                 coverage := cd.1, depth := cd.2 } :: tail)

/-- A Python value that is either a path or a tuple of paths. -/
inductive PyVal
  | pathv (s : String)
  | tuplev (elems : List String)
deriving DecidableEq

/-- Embeds workflow.py line 110:
`fasta_path = isolate_path/"isolate_index.fa",` — the trailing comma
makes the assigned value a 1-tuple containing the path, not the path. -/
def write_isolate_fasta_path (isolate_path : String) : PyVal :=
  .tuplev [isolate_path ++ "/isolate_index.fa"]

/-- Models the `aiofiles.open(path, "w")` performed by the external
`Index.write_isolate_fasta` on the path value it receives: a path opens,
a tuple raises `TypeError`. -/
def aiofilesOpenWrite : PyVal → Except PyErr String
  | .pathv s => .ok s
  | .tuplev _ => .error .typeError

/-- A single-quote character as a string (used by the shlex embedding). -/
def squo : String := String.singleton (Char.ofNat 39)

/-- A double-quote character as a string (used by the shlex embedding). -/
def dquo : String := String.singleton (Char.ofNat 34)

/-- Characters Python `shlex.quote` treats as safe: ASCII letters and
digits and the punctuation listed in its regex (underscore, at sign,
percent, plus, equals, colon, comma, dot, slash, hyphen). -/
def shlexSafe (c : Char) : Bool :=
  c.isAlphanum || c = '_' || c = '@' || c = '%' || c = '+' || c = '='
    || c = ':' || c = ',' || c = '.' || c = '/' || c = '-'

/-- Embeds Python `shlex.quote`. -/
def shlexQuote (s : String) : String :=
  if s = "" then squo ++ squo
  else if s.data.all shlexSafe then s
  else squo ++ (s.replace squo (squo ++ dquo ++ squo ++ dquo ++ squo)) ++ squo

/-- Embeds the bowtie2 argv of `map_default_isolates` (workflow.py lines
84-98).  The Python list literal has no comma between `"--no-unal"` and
`"--local"` (lines 88-89), so the adjacent string literals concatenate
into the single argument `"--no-unal--local"`. -/
def mapDefaultIsolatesArgv (proc : ℕ) (indexPath left right : String) : List String :=
  ["bowtie2",
   "-p", toString proc,
   "--no-unal--local",
   "--score-min", "L,20,1.0",
   "-N", "0",
   "-L", "15",
   "-x", indexPath,
   "-U", left ++ "," ++ right]

/-- Embeds the bowtie2 argv of `map_isolates` (workflow.py lines
192-208). -/
def mapIsolatesArgv (proc : ℕ) (mappedFastqPath referencePath left right : String) :
    List String :=
  ["bowtie2",
   "-p", toString proc,
   "--no-unal",
   "--local",
   "--score-min", "L,20,1.0",
   "-N", "0",
   "-L", "15",
   "-k", "100",
   "--al", mappedFastqPath,
   "-x", referencePath,
   "-U", left ++ "," ++ right]

/-- Embeds the bowtie2 argv of `map_subtractions` (workflow.py lines
249-260). -/
def mapSubtractionsArgv (proc : ℕ) (subtractionPath mappedFastqPath : String) :
    List String :=
  ["bowtie2",
   "--local",
   "-N", "0",
   "-p", toString proc,
   "-x", shlexQuote subtractionPath,
   "-U", mappedFastqPath]

/-- A working-directory file store: path to VTA record list. -/
def FileStore : Type := String → Option (List VtaRecord)

/-- Modelled from the spec: `pathoscope.subtract` is repository code that
is not under src/.  Per the subtraction pass contract, a record is
dropped when its read id appears in the host score table with a host
score greater than or equal to the record's isolate score; this predicate
is true on the records that survive. -/
def survivesSubtraction (host : String → Option ℚ) (r : VtaRecord) : Bool :=
  match host r.readId with
  | none => true
  | some s => decide (s < r.score)

/-- The subtracted alignment set: the surviving records, in order. -/
def subtractRecords (host : String → Option ℚ) (recs : List VtaRecord) :
    List VtaRecord :=
  recs.filter (survivesSubtraction host)

/-- Modelled from the spec: `pathoscope.replace_after_subtraction` is
repository code that is not under src/.  It replaces the file at the
second path with the file written at the first path, so the subtracted
set becomes the targeted alignment set at its original path. -/
def replaceAfterSubtraction (fs : FileStore) (src dst : String) : FileStore :=
  fun p => if p = dst then fs src else if p = src then none else fs p

/-- The targeted-mapping alignment path set by `map_isolates`
(workflow.py line 157, stored as `intermediate.isolate_vta_path`). -/
def toIsolatesVtaPath (isolatePath : String) : String :=
  isolatePath ++ "/to_isolates.vta"

/-- The output path of the subtraction pass (workflow.py line 275). -/
def subtractedVtaPath (isolatePath : String) : String :=
  isolatePath ++ "/subtracted.vta"

/-- Embeds the `subtract_mapping` step (workflow.py lines 267-291):
write the surviving records to `subtracted.vta`, then replace the file at
`intermediate.isolate_vta_path` with it. -/
def subtract_mapping_step (host : String → Option ℚ) (isolatePath : String)
    (fs : FileStore) : FileStore :=
  replaceAfterSubtraction
    (fun p =>
      if p = subtractedVtaPath isolatePath then
        some (subtractRecords host ((fs (toIsolatesVtaPath isolatePath)).getD []))
      else fs p)
    (subtractedVtaPath isolatePath)
    (toIsolatesVtaPath isolatePath)

/-- The alignment records the `reassignment` step reads: the content of
the file at `intermediate.isolate_vta_path` (workflow.py line 326). -/
def reassignmentInput (fs : FileStore) (isolatePath : String) : List VtaRecord :=
  (fs (toIsolatesVtaPath isolatePath)).getD []

/-- Constant score extractor used in concrete evaluations. -/
def exConstScore : List String → ℚ := fun _ => 1

/-- Score extractor returning a value below the pipeline cutoff. -/
def lowScoreFn : List String → ℚ := fun _ => 1/1000

/-- Score extractor used for the subtraction-table evaluations: the score
depends on the position field, so the two records of `exSubLines` get
different scores. -/
def exSubScore : List String → ℚ :=
  fun fields => if fields.getD 3 ("") = "p1" then 9/10 else 1/2

/-- Two accepted host alignments for the same read id `r1`, the higher
score first. -/
def exSubLines : List String := ["r1\t0\thost1\tp1", "r1\t0\thost1\tp2"]

/-- A well-formed accepted aligner line (10 fields, flag 0). -/
def exAcceptLine : String := "r1\t0\tref1\t7\t*\t*\t*\t*\t*\tACGT"

/-- A line whose flag field does not parse as an integer. -/
def exBadLine : String := "r1\tX\tref1"

/-- A header line starting with `#` that nevertheless has 10 well-formed
fields. -/
def exHashHeaderLine : String := "#r1\t0\tref1\t7\t*\t*\t*\t*\t*\tACGT"

theorem ratFloor_eq (q : ℚ) : ratFloor q = ⌊q⌋ := by
  rw [Rat.floor_def]; rfl

theorem rhe_nonneg {q : ℚ} (h : 0 ≤ q) : 0 ≤ rhe q := by
  unfold rhe
  simp only [ratFloor_eq]
  split_ifs with h1 h2
  · exact Int.floor_nonneg.mpr h
  · have := Int.floor_nonneg.mpr h
    omega
  · exact Int.floor_nonneg.mpr (by linarith)

theorem rhe_le {q : ℚ} {N : ℤ} (h : q ≤ (N : ℚ)) : rhe q ≤ N := by
  unfold rhe
  simp only [ratFloor_eq]
  split_ifs with h1 h2
  · calc ⌊q⌋ ≤ ⌊(N : ℚ)⌋ := Int.floor_mono h
      _ = N := Int.floor_intCast N
  · have hfq : ((⌊q⌋ : ℤ) : ℚ) = q - 1/2 := by linarith
    have hlt : ((⌊q⌋ : ℤ) : ℚ) < (N : ℚ) := by rw [hfq]; linarith
    have : ⌊q⌋ < N := by exact_mod_cast hlt
    omega
  · have : ⌊q + 1/2⌋ < N + 1 := Int.floor_lt.mpr (by push_cast; linarith)
    omega

theorem dictGet_map_overwrite (k : String) (v : ℚ) :
    ∀ d : List (String × ℚ), d.any (fun p => p.1 == k) = true →
      dictGet (d.map (fun p => if p.1 == k then (k, v) else p)) k = some v := by
  intro d
  induction d with
  | nil => intro h; simp at h
  | cons p t ih =>
    intro h
    by_cases hp : (p.1 == k) = true
    · rw [List.map_cons, if_pos hp]
      simp [dictGet]
    · have ht : t.any (fun p => p.1 == k) = true := by
        rw [List.any_cons, Bool.or_eq_true] at h
        exact h.resolve_left hp
      rw [List.map_cons, if_neg hp]
      simp only [dictGet]
      rw [if_neg hp]
      exact ih ht

theorem dictGet_append_new (k : String) (v : ℚ) :
    ∀ d : List (String × ℚ), d.any (fun p => p.1 == k) = false →
      dictGet (d ++ [(k, v)]) k = some v := by
  intro d
  induction d with
  | nil => intro h; simp [dictGet]
  | cons p t ih =>
    intro h
    rw [List.any_cons, Bool.or_eq_false_iff] at h
    rw [List.cons_append]
    simp only [dictGet]
    rw [if_neg (by simp [h.1])]
    exact ih h.2

theorem dictGet_map_overwrite_other (k kp : String) (v : ℚ) (hne : kp ≠ k) :
    ∀ d : List (String × ℚ),
      dictGet (d.map (fun p => if p.1 == kp then (kp, v) else p)) k = dictGet d k := by
  intro d
  induction d with
  | nil => rfl
  | cons p t ih =>
    by_cases hp : (p.1 == kp) = true
    · have hp' : p.1 = kp := by simpa [beq_iff_eq] using hp
      rw [List.map_cons, if_pos hp]
      simp only [dictGet]
      rw [if_neg (by simp [hne]), if_neg (by simp [hp', hne])]
      exact ih
    · rw [List.map_cons, if_neg hp]
      simp only [dictGet]
      by_cases hk : (p.1 == k) = true
      · rw [if_pos hk, if_pos hk]
      · rw [if_neg hk, if_neg hk]
        exact ih

theorem dictGet_append_other (k kp : String) (v : ℚ) (hne : kp ≠ k) :
    ∀ d : List (String × ℚ), dictGet (d ++ [(kp, v)]) k = dictGet d k := by
  intro d
  induction d with
  | nil =>
    simp only [List.nil_append, dictGet]
    rw [if_neg (by simp [hne])]
  | cons p t ih =>
    rw [List.cons_append]
    simp only [dictGet]
    by_cases hk : (p.1 == k) = true
    · rw [if_pos hk, if_pos hk]
    · rw [if_neg hk, if_neg hk]
      exact ih

theorem dictGet_dictSet_self (d : List (String × ℚ)) (k : String) (v : ℚ) :
    dictGet (dictSet d k v) k = some v := by
  unfold dictSet
  by_cases hany : d.any (fun p => p.1 == k) = true
  · rw [if_pos hany]
    exact dictGet_map_overwrite k v d hany
  · rw [if_neg hany]
    exact dictGet_append_new k v d (by rwa [Bool.not_eq_true] at hany)

theorem dictGet_dictSet_other (d : List (String × ℚ)) (k kp : String) (v : ℚ)
    (hne : kp ≠ k) : dictGet (dictSet d kp v) k = dictGet d k := by
  unfold dictSet
  by_cases hany : d.any (fun p => p.1 == kp) = true
  · rw [if_pos hany]
    exact dictGet_map_overwrite_other k kp v hne d
  · rw [if_neg hany]
    exact dictGet_append_other k kp v hne d

/-- C1 (code bug): the report-building loop of `reassignment` cannot join
coverage into any hit, because line 350 assigns the result of
`run_in_executor` without awaiting it; `intermediate.coverage` is the
pending task object and subscripting it at line 370 raises `TypeError` on
the first reference of a non-empty report. -/
theorem reassignment_hits_error_on_unawaited_coverage :
    buildHits (fun _ => "otu1") (fun _ => 1)
        (intermediateCoverage (fun _ => some [1, 1])) [("seq1", (0 : ℕ))]
      = Except.error PyErr.typeError := rfl

/-- C3 (code bug): the trailing comma at line 110 makes `fasta_path` a
1-tuple rather than a path, so the write of the isolate reference file
(and hence the index build on it) fails with `TypeError` instead of
producing a single reference file. -/
theorem write_isolate_fasta_tuple_path_bug :
    write_isolate_fasta_path ("work/isolates")
        = PyVal.tuplev ["work/isolates/isolate_index.fa"] ∧
    aiofilesOpenWrite (write_isolate_fasta_path ("work/isolates"))
        = Except.error PyErr.typeError :=
  ⟨rfl, rfl⟩

/-- C7 counterexample: on a length-0 coverage array the computation does
not report the pair `(0, 0)`; it raises instead. -/
theorem empty_coverage_array_not_reported_as_zero :
    attachCoverage ([] : List ℕ) ≠ Except.ok ((0 : ℚ), (0 : ℤ)) := by
  have h : attachCoverage ([] : List ℕ) = Except.error PyErr.zeroDivisionError := by
    with_unfolding_all rfl
  rw [h]
  simp

/-- C7 (amended): a reference whose coverage array has length 0 makes the
coverage computation raise `ZeroDivisionError` (the division
`hit_coverage.count(0) / len(hit_coverage)` has a zero denominator and
lines 369-377 contain no guard), aborting the stage instead of reporting
coverage 0 and depth 0. -/
theorem empty_coverage_array_zero_division :
    attachCoverage ([] : List ℕ) = Except.error PyErr.zeroDivisionError := by
  with_unfolding_all rfl

/-- C8 (code bug): the first-pass bowtie2 invocation does not receive
`--local` (nor `--no-unal`): lines 88-89 lack a comma, so the two string
literals concatenate into the single argument `--no-unal--local`.  The
targeted and host-subtraction invocations do pass `--local`, and the
targeted pass passes `-k 100` and captures mapped reads with `--al`. -/
theorem bowtie2_local_flag_argv_facts :
    (¬ ("--local" ∈ mapDefaultIsolatesArgv 2 ("idx") ("l.fq") ("r.fq"))) ∧
    ("--no-unal--local" ∈ mapDefaultIsolatesArgv 2 ("idx") ("l.fq") ("r.fq")) ∧
    ("--local" ∈ mapIsolatesArgv 2 ("mapped.fastq") ("isolates") ("l.fq") ("r.fq")) ∧
    List.IsInfix ["-k", "100"]
      (mapIsolatesArgv 2 ("mapped.fastq") ("isolates") ("l.fq") ("r.fq")) ∧
    List.IsInfix ["--al", "mapped.fastq"]
      (mapIsolatesArgv 2 ("mapped.fastq") ("isolates") ("l.fq") ("r.fq")) ∧
    ("--local" ∈ mapSubtractionsArgv 2 ("host_idx") ("mapped.fastq")) := by
  decide

/-- C9 counterexample: for the depth array `[0, 1, 1]` the reported
coverage is `round(1 - 1/3, 3) = 0.667`, which differs from the exact
value `1 - 1/3`. -/
theorem reported_coverage_rounded_not_exact :
    attachCoverage [0, 1, 1] = Except.ok ((667 : ℚ)/1000, (1 : ℤ)) ∧
    (667 : ℚ)/1000 ≠ 1 - ((1 : ℚ))/3 := by
  constructor
  · with_unfolding_all rfl
  · norm_num

/-- C9 (amended): for every non-empty depth array the computation
succeeds; the reported coverage equals `1 − count0/len` rounded half to
even at the third decimal place (hence lies in `[0, 1]`), and the
reported depth equals the mean rounded half to even to an integer. -/
theorem coverage_depth_reported_values :
    ∀ cov : List ℕ, cov ≠ [] →
    attachCoverage cov = Except.ok
        (pyRound3 (1 - ((cov.count 0 : ℕ) : ℚ) / ((cov.length : ℕ) : ℚ)),
         rhe (((cov.sum : ℕ) : ℚ) / ((cov.length : ℕ) : ℚ))) ∧
    0 ≤ pyRound3 (1 - ((cov.count 0 : ℕ) : ℚ) / ((cov.length : ℕ) : ℚ)) ∧
    pyRound3 (1 - ((cov.count 0 : ℕ) : ℚ) / ((cov.length : ℕ) : ℚ)) ≤ 1 := by
  intro cov hne
  have hlpos : 0 < cov.length := List.length_pos.mpr hne
  have hl : (0 : ℚ) < ((cov.length : ℕ) : ℚ) := by exact_mod_cast hlpos
  have hlne : ((cov.length : ℕ) : ℚ) ≠ 0 := ne_of_gt hl
  have hcle : ((cov.count 0 : ℕ) : ℚ) ≤ ((cov.length : ℕ) : ℚ) := by
    exact_mod_cast List.count_le_length 0 cov
  have hfrac0 : 0 ≤ ((cov.count 0 : ℕ) : ℚ) / ((cov.length : ℕ) : ℚ) :=
    div_nonneg (Nat.cast_nonneg _) (le_of_lt hl)
  have hfrac1 : ((cov.count 0 : ℕ) : ℚ) / ((cov.length : ℕ) : ℚ) ≤ 1 :=
    (div_le_one hl).mpr hcle
  refine ⟨?_, ?_, ?_⟩
  · simp [attachCoverage, pyDiv, hlne]
  · unfold pyRound3
    have h0 : (0 : ℚ) ≤ (1 - ((cov.count 0 : ℕ) : ℚ) / ((cov.length : ℕ) : ℚ)) * 1000 := by
      nlinarith
    have hr := rhe_nonneg h0
    exact div_nonneg (by exact_mod_cast hr) (by norm_num)
  · unfold pyRound3
    have h1 : (1 - ((cov.count 0 : ℕ) : ℚ) / ((cov.length : ℕ) : ℚ)) * 1000
        ≤ ((1000 : ℤ) : ℚ) := by
      push_cast
      nlinarith
    have hr := rhe_le h1
    rw [div_le_one (by norm_num : (0 : ℚ) < 1000)]
    exact_mod_cast hr

/-- C9 witness: the amended statement evaluated at the depth array
`[0, 1, 1]`. -/
theorem coverage_depth_reported_values_witness :
    attachCoverage [0, 1, 1] = Except.ok
        (pyRound3 (1 - ((([0, 1, 1] : List ℕ).count 0 : ℕ) : ℚ)
            / ((([0, 1, 1] : List ℕ).length : ℕ) : ℚ)),
         rhe (((([0, 1, 1] : List ℕ).sum : ℕ) : ℚ)
            / ((([0, 1, 1] : List ℕ).length : ℕ) : ℚ))) ∧
    0 ≤ pyRound3 (1 - ((([0, 1, 1] : List ℕ).count 0 : ℕ) : ℚ)
        / ((([0, 1, 1] : List ℕ).length : ℕ) : ℚ)) ∧
    pyRound3 (1 - ((([0, 1, 1] : List ℕ).count 0 : ℕ) : ℚ)
        / ((([0, 1, 1] : List ℕ).length : ℕ) : ℚ)) ≤ 1 :=
  coverage_depth_reported_values [0, 1, 1] (by decide)

/-- C2 counterexample: two accepted host records for read `r1` with
scores 9/10 then 1/2 leave the table holding 1/2, the last-seen score,
not the maximum 9/10. -/
theorem map_subtractions_keeps_last_score_not_max :
    runSubtraction exSubScore exSubLines [] = Except.ok [(("r1" : String), (1 : ℚ)/2)] ∧
    acceptedFor exSubScore exSubLines ("r1") = [(9 : ℚ)/10, (1 : ℚ)/2] ∧
    ((1 : ℚ)/2) ≠ (9 : ℚ)/10 := by
  refine ⟨?_, ?_, by norm_num⟩
  · with_unfolding_all rfl
  · with_unfolding_all rfl

/-- C2 (amended): the host-subtraction stage stores, per read id, the
score of the last accepted record (plain dict assignment, last write
wins), falling back to the prior table entry when no record for that read
is accepted.  This equals the maximum only when at most one record per
read is accepted. -/
theorem map_subtractions_last_write_wins :
    ∀ (score : List String → ℚ) (lines : List String)
      (d₀ d : List (String × ℚ)) (k : String),
    runSubtraction score lines d₀ = Except.ok d →
    dictGet d k = lastOr (acceptedFor score lines k) (dictGet d₀ k) := by
  intro score lines
  induction lines with
  | nil =>
    intro d₀ d k h
    simp only [runSubtraction] at h
    injection h with h2
    subst h2
    simp [acceptedFor, lastOr]
  | cons line rest ih =>
    intro d₀ d k h
    simp only [runSubtraction] at h
    cases hcl : map_subtractions_handler score line with
    | error e =>
      rw [hcl] at h
      exact Except.noConfusion h
    | reject =>
      rw [hcl] at h
      rw [ih d₀ d k h]
      simp [acceptedFor, List.filterMap_cons, hcl]
    | accept kv =>
      rw [hcl] at h
      rw [ih (dictSet d₀ kv.1 kv.2) d k h]
      by_cases hk : kv.1 = k
      · subst hk
        rw [dictGet_dictSet_self]
        simp only [acceptedFor, List.filterMap_cons, hcl]
        rw [if_pos (by simp)]
        rfl
      · rw [dictGet_dictSet_other _ _ _ _ hk]
        simp only [acceptedFor, List.filterMap_cons, hcl]
        rw [if_neg (by simp [hk])]

/-- C2 witness: the amended statement evaluated on the two-line example,
whose final table is exactly the last accepted score of read `r1`. -/
theorem map_subtractions_last_write_wins_witness :
    dictGet [(("r1" : String), (1 : ℚ)/2)] ("r1")
      = lastOr (acceptedFor exSubScore exSubLines ("r1")) (dictGet [] ("r1")) :=
  map_subtractions_last_write_wins exSubScore exSubLines []
    [(("r1" : String), (1 : ℚ)/2)] ("r1") (by with_unfolding_all rfl)

/-- C4 (code bug): the first-pass handler rejects a line starting with
`#`, but the targeted and host-subtraction handlers compare the whole
line against `"#"` (workflow.py lines 164 and 234), so a well-formed line
starting with `#` is parsed and accepted there. -/
theorem hash_header_line_accepted_by_later_stages :
    map_default_isolates_handler exConstScore p_score_cutoff exHashHeaderLine
        = .reject ∧
    map_isolates_handler exConstScore p_score_cutoff exHashHeaderLine
        = .accept (VtaRecord.mk ("#r1") ("ref1") ("7") 4 1) ∧
    map_subtractions_handler exConstScore exHashHeaderLine
        = .accept (("#r1", (1 : ℚ))) := by
  refine ⟨rfl, ?_, rfl⟩
  with_unfolding_all rfl

/-- C5 counterexample: the host-subtraction handler applies no score
cutoff, so it records a score of 1/1000 even though the pipeline cutoff
fixture is 1/100. -/
theorem map_subtractions_accepts_below_cutoff :
    map_subtractions_handler lowScoreFn ("r1\t0\thost1")
        = .accept (("r1", (1 : ℚ)/1000)) ∧
    (1 : ℚ)/1000 < p_score_cutoff := by
  refine ⟨rfl, ?_⟩
  norm_num [p_score_cutoff]

/-- C5 (amended): in the first-pass and targeted stages an accepted
record never has reference id `*`, never has the unmapped flag bit set,
and never has a score below the cutoff; the host-subtraction stage
guarantees the first two but applies no score cutoff. -/
theorem accepted_record_invariants :
    ∀ (score : List String → ℚ) (cutoff : ℚ) (line : String),
    (∀ ref, map_default_isolates_handler score cutoff line = .accept ref →
      ref ≠ "*" ∧ flagClear (pySplitTab line) = true
        ∧ cutoff ≤ score (pySplitTab line)) ∧
    (∀ r, map_isolates_handler score cutoff line = .accept r →
      r.refId ≠ "*" ∧ flagClear (pySplitTab line) = true ∧ cutoff ≤ r.score) ∧
    (∀ kv, map_subtractions_handler score line = .accept kv →
      (pySplitTab line).getD 2 ("") ≠ "*" ∧ flagClear (pySplitTab line) = true) := by
  intro score cutoff line
  refine ⟨?_, ?_, ?_⟩
  · intro ref h
    unfold map_default_isolates_handler at h
    cases hd : line.data.head? with
    | none => rw [hd] at h; exact FilterResult.noConfusion h
    | some c =>
      rw [hd] at h
      cases hpy : pyInt ((pySplitTab line).getD 1 ("")) with
      | none =>
        simp only [hpy] at h
        split_ifs at h
      | some flag =>
        simp only [hpy] at h
        split_ifs at h with hHead hLen2 hF hLen3 hStar hScore
        injection h with h2
        subst h2
        have hfc : flagClear (pySplitTab line) = true := by
          unfold flagClear
          rw [hpy]
          simpa [bne_iff_ne] using hF
        exact ⟨hStar, hfc, not_lt.mp hScore⟩
  · intro r h
    unfold map_isolates_handler at h
    cases hd : line.data.head? with
    | none => rw [hd] at h; exact FilterResult.noConfusion h
    | some c =>
      rw [hd] at h
      cases hpy : pyInt ((pySplitTab line).getD 1 ("")) with
      | none =>
        simp only [hpy] at h
        split_ifs at h
      | some flag =>
        simp only [hpy] at h
        split_ifs at h with hHead hLen2 hF hLen3 hStar hScore hLen10
        injection h with h2
        subst h2
        have hfc : flagClear (pySplitTab line) = true := by
          unfold flagClear
          rw [hpy]
          simpa [bne_iff_ne] using hF
        exact ⟨hStar, hfc, not_lt.mp hScore⟩
  · intro kv h
    unfold map_subtractions_handler at h
    cases hd : line.data.head? with
    | none => rw [hd] at h; exact FilterResult.noConfusion h
    | some c =>
      rw [hd] at h
      cases hpy : pyInt ((pySplitTab line).getD 1 ("")) with
      | none =>
        simp only [hpy] at h
        split_ifs at h
      | some flag =>
        simp only [hpy] at h
        split_ifs at h with hHead hLen2 hF hLen3 hStar
        have hfc : flagClear (pySplitTab line) = true := by
          unfold flagClear
          rw [hpy]
          simpa [bne_iff_ne] using hF
        exact ⟨hStar, hfc⟩

/-- C5 witness: the amended invariants evaluated at a concrete accepted
line in each of the three stages. -/
theorem accepted_record_invariants_witness :
    ((("ref1" : String) ≠ "*") ∧ flagClear (pySplitTab exAcceptLine) = true ∧
        p_score_cutoff ≤ exConstScore (pySplitTab exAcceptLine)) ∧
    ((VtaRecord.mk ("r1") ("ref1") ("7") 4 1).refId ≠ "*" ∧
        flagClear (pySplitTab exAcceptLine) = true ∧
        p_score_cutoff ≤ (VtaRecord.mk ("r1") ("ref1") ("7") 4 1).score) ∧
    (((pySplitTab exAcceptLine).getD 2 ("")) ≠ "*" ∧
        flagClear (pySplitTab exAcceptLine) = true) :=
  ⟨(accepted_record_invariants exConstScore p_score_cutoff exAcceptLine).1 ("ref1")
      (by with_unfolding_all rfl),
   (accepted_record_invariants exConstScore p_score_cutoff exAcceptLine).2.1
      (VtaRecord.mk ("r1") ("ref1") ("7") 4 1) (by with_unfolding_all rfl),
   (accepted_record_invariants exConstScore p_score_cutoff exAcceptLine).2.2
      (("r1", (1 : ℚ))) rfl⟩

/-- C6 counterexample: a line whose flag field does not parse as an
integer makes the first-pass handler raise `ValueError` instead of being
skipped with the state unchanged. -/
theorem malformed_line_raises_for_default_stage :
    map_default_isolates_handler exConstScore p_score_cutoff exBadLine
      = .error .valueError := rfl

/-- C6 (amended): a non-header line whose flag field is missing or does
not parse as an integer makes the first-pass and targeted handlers raise
(`IndexError` or `ValueError`); the line is not silently skipped and the
exception aborts the stage. -/
theorem malformed_flag_field_fatal :
    ∀ (score : List String → ℚ) (cutoff : ℚ) (line : String),
    pyInt ((pySplitTab line).getD 1 ("")) = none →
    (headerDefault line = false →
      isErr (map_default_isolates_handler score cutoff line) = true) ∧
    (headerIsolates line = false →
      isErr (map_isolates_handler score cutoff line) = true) := by
  intro score cutoff line hpy
  constructor
  · intro hH
    unfold map_default_isolates_handler
    cases hd : line.data.head? with
    | none => rfl
    | some c =>
      have hc : ¬(c = '#' ∨ c = '@') := by
        unfold headerDefault at hH
        rw [hd] at hH
        simpa using hH
      dsimp only
      rw [if_neg hc]
      by_cases hlen : (pySplitTab line).length < 2
      · rw [if_pos hlen]
        rfl
      · rw [if_neg hlen]
        simp only [hpy]
        rfl
  · intro hH
    unfold map_isolates_handler
    cases hd : line.data.head? with
    | none => rfl
    | some c =>
      have hc : ¬(c = '@' ∨ line = "#") := by
        unfold headerIsolates at hH
        rw [hd] at hH
        simpa using hH
      dsimp only
      rw [if_neg hc]
      by_cases hlen : (pySplitTab line).length < 2
      · rw [if_pos hlen]
        rfl
      · rw [if_neg hlen]
        simp only [hpy]
        rfl

/-- C6 witness: the amended statement evaluated at the concrete malformed
line. -/
theorem malformed_flag_field_fatal_witness :
    isErr (map_default_isolates_handler exConstScore p_score_cutoff exBadLine) = true ∧
    isErr (map_isolates_handler exConstScore p_score_cutoff exBadLine) = true :=
  ⟨(malformed_flag_field_fatal exConstScore p_score_cutoff exBadLine (by decide)).1
      (by decide),
   (malformed_flag_field_fatal exConstScore p_score_cutoff exBadLine (by decide)).2
      (by decide)⟩

/-- C10: after the subtraction step, the file at
`intermediate.isolate_vta_path` holds exactly the subtracted alignment
set (the pre-subtraction records are no longer at that path), so the
reassignment stage, reading that same path, sees only records that
survived host subtraction. -/
theorem subtraction_replaces_alignment_file_in_place :
    ∀ (host : String → Option ℚ) (isolatePath : String) (fs : FileStore),
    reassignmentInput (subtract_mapping_step host isolatePath fs) isolatePath
      = subtractRecords host (reassignmentInput fs isolatePath) ∧
    (reassignmentInput (subtract_mapping_step host isolatePath fs) isolatePath).all
      (survivesSubtraction host) = true := by
  intro host ip fs
  have h1 : reassignmentInput (subtract_mapping_step host ip fs) ip
      = subtractRecords host (reassignmentInput fs ip) := by
    unfold reassignmentInput subtract_mapping_step replaceAfterSubtraction
    simp
  refine ⟨h1, ?_⟩
  rw [h1]
  unfold subtractRecords
  rw [List.all_eq_true]
  intro r hr
  exact (List.mem_filter.mp hr).2
